import Mathlib

/-!
Verification development for the `expo-color-space-plugin` CLI
(`src/cli.ts`).  The tool edits an Expo project's configuration file to
register the plugin entry.  We shallowly embed the relevant functions:

* JSON documents are modelled by the inductive `Json`; a parsed `app.json`
  is a `Json` value, `JSON.parse` failures are modelled by an
  `Except String Json` input (`JSON.parse` is runtime library code).
* `isPluginInConfig`, `modifyAppJson`, `modifyAppConfigJs`, the `apply`
  orchestration and the `main` argument parsing are translated function by
  function.  JavaScript object-mutation semantics (`config.expo = {}` on a
  falsy field, property assignment on non-objects, `JSON.stringify`
  dropping non-index properties of arrays) are reproduced at the JSON
  level; each spot is documented where it matters.
* Code-format files (`app.config.js` / `app.config.ts`) are raw text,
  modelled as `List Char`; the three regular expressions used by the
  patcher are literal-key-then-whitespace-then-opener matchers, embedded
  exactly (leftmost match, greedy `\s*`, first-match replacement).
-/

/-- JSON values.  Numbers are restricted to integers: no claim involves
non-integral numerics, and none of the repository's code constructs any. -/
inductive Json where
  | null : Json
  | bool (b : Bool) : Json
  | num (n : Int) : Json
  | str (s : String) : Json
  | arr (elems : List Json) : Json
  | obj (fields : List (String × Json)) : Json

/-- The two admissible color spaces (`type ColorSpace` in the source). -/
inductive ColorSpace where
  | displayP3 : ColorSpace
  | SRGB : ColorSpace
deriving DecidableEq, Repr

/-- The string form of a color space, as interpolated into templates. -/
def ColorSpace.toStr : ColorSpace → String
  | .displayP3 => "displayP3"
  | .SRGB => "SRGB"

/-- The plugin identifier used throughout the source. -/
def pluginId : String := "expo-color-space-plugin"

/-- JavaScript truthiness of a JSON value (`!config.expo` tests).  `null`,
`false`, `0` and `""` are falsy; arrays and objects are always truthy. -/
def truthy : Json → Bool
  | .null => false
  | .bool b => b
  | .num n => n != 0
  | .str s => s != ""
  | .arr _ => true
  | .obj _ => true

/-- First-binding lookup in a JSON object's field list (objects produced by
`JSON.parse` never bind a key twice). -/
def jlookup : List (String × Json) → String → Option Json
  | [], _ => none
  | (k, v) :: t, key => if k = key then some v else jlookup t key

/-- JavaScript property assignment `o[key] = v` on an object: an existing
binding is overwritten in place, a new key is appended at the end
(insertion order, as `JSON.stringify` will serialize it). -/
def setKey : List (String × Json) → String → Json → List (String × Json)
  | [], key, v => [(key, v)]
  | (k, w) :: t, key, v =>
      if k = key then (k, v) :: t else (k, w) :: setKey t key v

/-- `if (!o.key) o.key = dflt` — the ensure-present idiom of
`modifyAppJson` for `config.expo` and `config.expo.plugins`. -/
def ensureKey (kvs : List (String × Json)) (key : String) (dflt : Json) :
    List (String × Json) :=
  match jlookup kvs key with
  | some v => if truthy v then kvs else setKey kvs key dflt
  | none => setKey kvs key dflt

/-- Whether one plugin-list element matches the target
(`isPluginInConfig`'s `some` callback): a bare string equal to the
identifier, or any non-empty array whose first element is that string
(`Array.isArray(plugin) && plugin.length > 0 && plugin[0] === id`). -/
def pluginMatches : Json → Bool
  | .str s => s == pluginId
  | .arr (.str s :: _) => s == pluginId
  | _ => false

/-- `isPluginInConfig(plugins)` (src/cli.ts:54-66): `false` for a
non-array, otherwise `Array.prototype.some` over `pluginMatches`. -/
def isPluginInConfig : Json → Bool
  | .arr plugins => plugins.any pluginMatches
  | _ => false

/-- The entry pushed by `modifyAppJson`:
`['expo-color-space-plugin', { colorSpace }]`. -/
def entryJson (cs : ColorSpace) : Json :=
  .arr [.str pluginId, .obj [("colorSpace", .str cs.toStr)]]

/-- A JavaScript error observed by `modifyAppJson`'s `catch`. -/
inductive JsError where
  | parseError (msg : String) : JsError
  | typeError : JsError
deriving DecidableEq, Repr

/-- Outcome of `modifyAppJson` (src/cli.ts:71-100). -/
inductive JsonPatchResult where
  /-- The plugin was detected: log "already configured", return `false`,
  no write. -/
  | alreadyConfigured : JsonPatchResult
  /-- The file was rewritten with the serialization of this document,
  return `true`. -/
  | written (doc : Json) : JsonPatchResult
  /-- An exception was raised and wrapped into
  `Failed to modify app.json: ...`. -/
  | failed (e : JsError) : JsonPatchResult

/-- `modifyAppJson` (src/cli.ts:71-100) on the outcome of
`JSON.parse(content)`.  Beyond the plain-object path the translation
follows JavaScript semantics exactly:

* top-level `null` / primitive: reading or assigning `config.expo`'s
  properties raises a `TypeError`, caught and wrapped;
* top-level array: `config.expo = {}` and the `plugins` assignment attach
  extra named properties to the array, which `JSON.stringify` drops, so
  the write reproduces the original array and the call returns `true`;
* `expo` bound to a truthy non-object primitive: the `plugins` property
  chain raises a `TypeError`;
* `expo` bound to a (truthy) array: `config.expo.plugins` becomes a named
  property of that array; `isPluginInConfig` sees the fresh `[]`, the push
  succeeds, and `JSON.stringify` drops the property, so the document is
  written back unchanged with result `true`. -/
def modifyAppJson (parsed : Except String Json) (cs : ColorSpace) :
    JsonPatchResult :=
  match parsed with
  | .error e => .failed (.parseError e)
  | .ok (.obj kvs) =>
    let kvs1 := ensureKey kvs "expo" (.obj [])
    match jlookup kvs1 "expo" with
    | some (.obj ekvs) =>
      let ekvs1 := ensureKey ekvs "plugins" (.arr [])
      match jlookup ekvs1 "plugins" with
      | some p =>
        if isPluginInConfig p then .alreadyConfigured
        else
          match p with
          | .arr xs =>
              .written (.obj (setKey kvs1 "expo"
                (.obj (setKey ekvs1 "plugins" (.arr (xs ++ [entryJson cs]))))))
          | _ => .failed .typeError
      | none => .failed .typeError
    | some (.arr _) => .written (.obj kvs1)
    | _ => .failed .typeError
  | .ok (.arr xs) => .written (.arr xs)
  | .ok _ => .failed .typeError

/-- JavaScript's `\s` character class, used by the three anchor patterns:
ASCII whitespace, NBSP, the Unicode space separators, the line and
paragraph separators and the BOM. -/
def isJsWs (c : Char) : Bool :=
  c = ' ' || c = '\t' || c = '\n' || c = '\r' || c = '\x0b' || c = '\x0c' ||
  c = '\u00a0' || c = '\u1680' || (0x2000 ≤ c.toNat && c.toNat ≤ 0x200a) ||
  c = '\u2028' || c = '\u2029' || c = '\u202f' || c = '\u205f' ||
  c = '\u3000' || c = '\ufeff'

/-- `hay.includes(needle)`: JavaScript substring containment, on text as
character lists. -/
def includes (needle : List Char) : List Char → Bool
  | [] => needle.isPrefixOf ([] : List Char)
  | c :: t => needle.isPrefixOf (c :: t) || includes needle t

/-- One attempt of a pattern `key\s*op` at the head of `s` (each of the
three anchor regexes has this shape).  The greedy `\s*` followed by the
non-whitespace `op` makes the match deterministic: the whole whitespace
run after `key` must be followed by `op`.  Returns the whitespace run and
the text after `op` when the pattern matches here. -/
def matchKeyAt (key : List Char) (op : Char) (s : List Char) :
    Option (List Char × List Char) :=
  if key.isPrefixOf s then
    let after := s.drop key.length
    match after.dropWhile isJsWs with
    | c :: rest => if c = op then some (after.takeWhile isJsWs, rest) else none
    | [] => none
  else none

/-- `content.replace(regex, '$1' + ins)` for a `key\s*op` regex without the
global flag: find the leftmost match and splice `ins` in right after it
(`$1` is the whole matched group). -/
def findReplace (key : List Char) (op : Char) (ins : List Char) :
    List Char → Option (List Char)
  | [] => none
  | c :: cs =>
    match matchKeyAt key op (c :: cs) with
    | some (ws, rest) => some (key ++ ws ++ op :: (ins ++ rest))
    | none => (findReplace key op ins cs).map (fun out => c :: out)

/-- `regex.test(content)` for a `key\s*op` regex: some position matches. -/
def hasAnchor (key : List Char) (op : Char) : List Char → Bool
  | [] => false
  | c :: cs => (matchKeyAt key op (c :: cs)).isSome || hasAnchor key op cs

/-- The plugin identifier as text (target of the `includes` search). -/
def pluginIdText : List Char := pluginId.toList

/-- The literal text of `plugins:` — anchor pattern 1 is `/(plugins:\s*\[)/`. -/
def pluginsKeyBare : List Char := ("plugins:").toList

/-- The literal text of `"plugins":` — anchor pattern 2 is
`/("plugins":\s*\[)/`. -/
def pluginsKeyQuoted : List Char := ("\"plugins\":").toList

/-- The literal text of `expo:` — anchor pattern 3 is `/(expo:\s*\{)/`. -/
def expoKeyText : List Char := ("expo:").toList

/-- `pluginEntry`: the fixed template
`["expo-color-space-plugin", { "colorSpace": "<value>" }]`. -/
def pluginEntryText (cs : ColorSpace) : List Char :=
  ("[\"expo-color-space-plugin\", \x7b \"colorSpace\": \"" ++ cs.toStr
    ++ "\" \x7d]").toList

/-- What patterns 1 and 2 splice in after the matched anchor:
`\n      ${pluginEntry},`. -/
def insertedListEntry (cs : ColorSpace) : List Char :=
  ("\n      ").toList ++ pluginEntryText cs ++ [',']

/-- What pattern 3 splices in after the matched `expo: {` anchor:
`\n    plugins: [\n      ${pluginEntry}\n    ],`. -/
def insertedPluginsBlock (cs : ColorSpace) : List Char :=
  ("\n    plugins: [\n      ").toList ++ pluginEntryText cs
    ++ ("\n    ],").toList

/-- Outcome of `modifyAppConfigJs` (src/cli.ts:105-159). -/
inductive TextPatchResult where
  /-- The identifier occurs somewhere in the raw text: log "already
  configured", return `false`, no write. -/
  | alreadyConfigured : TextPatchResult
  /-- One anchor matched: the file was rewritten with this text, return
  `true`. -/
  | written (content : List Char) : TextPatchResult
  /-- No anchor matched: log manual-insertion guidance with the literal
  entry text, return `false`, no write. -/
  | notModified : TextPatchResult
deriving DecidableEq, Repr

/-- `modifyAppConfigJs` (src/cli.ts:105-159): substring detection first,
then the three anchors in order, first match wins. -/
def modifyAppConfigJs (content : List Char) (cs : ColorSpace) :
    TextPatchResult :=
  if includes pluginIdText content then .alreadyConfigured
  else
    match findReplace pluginsKeyBare '[' (insertedListEntry cs) content with
    | some out => .written out
    | none =>
      match findReplace pluginsKeyQuoted '[' (insertedListEntry cs) content with
      | some out => .written out
      | none =>
        match findReplace expoKeyText '\x7b' (insertedPluginsBlock cs) content with
        | some out => .written out
        | none => .notModified

/-- One lowercase hexadecimal digit (for `\u00XX` escapes). -/
def hexDigit (n : Nat) : Char :=
  if n < 10 then Char.ofNat (48 + n) else Char.ofNat (87 + n)

/-- `JSON.stringify`'s escaping of one character inside a quoted string. -/
def escChar (c : Char) : List Char :=
  if c = '"' then ['\\', '"']
  else if c = '\\' then ['\\', '\\']
  else if c = '\x08' then ['\\', 'b']
  else if c = '\x0c' then ['\\', 'f']
  else if c = '\n' then ['\\', 'n']
  else if c = '\r' then ['\\', 'r']
  else if c = '\t' then ['\\', 't']
  else if c.toNat < 32 then
    ['\\', 'u', '0', '0', hexDigit (c.toNat / 16), hexDigit (c.toNat % 16)]
  else [c]

/-- A quoted JSON string literal. -/
def quoteStr (s : String) : List Char :=
  '"' :: (s.toList.map escChar).flatten ++ ['"']

/-- `n` spaces of indentation. -/
def nSpaces (n : Nat) : List Char := List.replicate n ' '

mutual

/-- `JSON.stringify(v, null, 2)` of one value at indentation level `ind`
(the indentation of the enclosing container). -/
def stringifyAt : Nat → Json → List Char
  | _, .null => ("null").toList
  | _, .bool true => ("true").toList
  | _, .bool false => ("false").toList
  | _, .num n => (toString n).toList
  | _, .str s => quoteStr s
  | _, .arr [] => ("[]").toList
  | ind, .arr (x :: xs) =>
      '[' :: '\n' ::
        (stringifyItems (ind + 2) (x :: xs) ++ '\n' :: (nSpaces ind ++ [']']))
  | _, .obj [] => ("\x7b\x7d").toList
  | ind, .obj (f :: fs) =>
      '\x7b' :: '\n' ::
        (stringifyFields (ind + 2) (f :: fs) ++ '\n' :: (nSpaces ind ++ ['\x7d']))

/-- The comma-newline-joined, indented serializations of array elements. -/
def stringifyItems : Nat → List Json → List Char
  | _, [] => []
  | ind, [x] => nSpaces ind ++ stringifyAt ind x
  | ind, x :: xs =>
      (nSpaces ind ++ stringifyAt ind x) ++ ',' :: '\n' :: stringifyItems ind xs

/-- The comma-newline-joined, indented serializations of object fields
(`"key": value` with a single space after the colon). -/
def stringifyFields : Nat → List (String × Json) → List Char
  | _, [] => []
  | ind, [kv] => nSpaces ind ++ (quoteStr kv.1 ++ ':' :: ' ' :: stringifyAt ind kv.2)
  | ind, kv :: fs =>
      (nSpaces ind ++ (quoteStr kv.1 ++ ':' :: ' ' :: stringifyAt ind kv.2)) ++
        ',' :: '\n' :: stringifyFields ind fs

end

/-- `JSON.stringify(v, null, 2)`. -/
def Json.stringify (j : Json) : List Char := stringifyAt 0 j

/-- The file located by `detectConfigFile`, together with its content at
read time: `app.json` carries the outcome of `JSON.parse` on its text,
the two code formats carry raw text (`.js` and `.ts` are patched by the
same function). -/
inductive ConfigFile where
  | appJson (parsed : Except String Json) : ConfigFile
  | appConfigJs (content : List Char) : ConfigFile
  | appConfigTs (content : List Char) : ConfigFile

/-- An error surfaced by `apply`'s catch-all handler. -/
inductive RunError where
  /-- `Failed to modify app.json: ${error}` — the wrap around the inner
  JavaScript error. -/
  | failedModifyAppJson (e : JsError) : RunError
deriving DecidableEq, Repr

/-- Observable console events of one run, in order. -/
inductive Msg where
  | usage : Msg
  | invalidColorSpace : Msg
  | noConfigFound : Msg
  | foundConfig : Msg
  /-- The blocking single-question color-space prompt was performed. -/
  | prompted : Msg
  /-- "Plugin is already configured in ..." -/
  | alreadyConfigured : Msg
  /-- "Successfully added expo-color-space-plugin with ... color space!" -/
  | successAdded (cs : ColorSpace) : Msg
  /-- "Could not automatically modify ...": the literal entry text is
  printed as manual-insertion guidance. -/
  | manualGuidance (entry : List Char) : Msg
  | errorReported (e : RunError) : Msg
deriving DecidableEq, Repr

/-- Result of one process run: exit code, the content written to the
configuration file (`none`: the file was never written) and the console
events. -/
structure RunResult where
  exitCode : Nat
  written : Option (List Char)
  events : List Msg
deriving DecidableEq, Repr

/-- `promptColorSpace` (src/cli.ts:33-49): a trimmed answer of `2` selects
SRGB, everything else (including an empty answer) defaults to displayP3. -/
def promptColorSpace (answer : String) : ColorSpace :=
  if answer.trim = "2" then .SRGB else .displayP3

/-- Outcome of the patcher chosen by extension, with the written text made
explicit (`app.json` is written as `JSON.stringify(config, null, 2) + '\n'`,
the code formats are written verbatim). -/
inductive PatchOutcome where
  | alreadyConfigured : PatchOutcome
  | written (content : List Char) : PatchOutcome
  | notModified : PatchOutcome
  | failed (e : RunError) : PatchOutcome
deriving DecidableEq, Repr

/-- The extension dispatch of `apply` (src/cli.ts:181-188) combined with
each patcher's write. -/
def patchFile : ConfigFile → ColorSpace → PatchOutcome
  | .appJson parsed, cs =>
    match modifyAppJson parsed cs with
    | .alreadyConfigured => .alreadyConfigured
    | .written d => .written (Json.stringify d ++ ['\n'])
    | .failed e => .failed (.failedModifyAppJson e)
  | .appConfigJs content, cs | .appConfigTs content, cs =>
    match modifyAppConfigJs content cs with
    | .alreadyConfigured => .alreadyConfigured
    | .written out => .written out
    | .notModified => .notModified

/-- `apply` (src/cli.ts:164-201), given the located file (or none), the
`--colorSpace` option and the line the user would type if prompted.  The
source resolves the color space — prompting when no flag was given —
BEFORE it invokes the patcher; detection lives inside the patchers. -/
def applyRun (file : Option ConfigFile) (optCS : Option ColorSpace)
    (answer : String) : RunResult :=
  match file with
  | none => ⟨1, none, [.noConfigFound]⟩
  | some f =>
    let promptEv : List Msg := if optCS.isSome then [] else [.prompted]
    let cs := match optCS with
      | some c => c
      | none => promptColorSpace answer
    let pre : List Msg := .foundConfig :: promptEv
    match patchFile f cs with
    | .alreadyConfigured => ⟨0, none, pre ++ [.alreadyConfigured]⟩
    | .written w => ⟨0, some w, pre ++ [.successAdded cs]⟩
    | .notModified => ⟨0, none, pre ++ [.manualGuidance (pluginEntryText cs)]⟩
    | .failed e => ⟨1, none, pre ++ [.errorReported e]⟩

/-- JavaScript `String.prototype.split` with a one-character separator. -/
def splitOnChar (sep : Char) : List Char → List (List Char)
  | [] => [[]]
  | c :: cs =>
    if c = sep then [] :: splitOnChar sep cs
    else
      match splitOnChar sep cs with
      | [] => [[c]]
      | t :: ts => (c :: t) :: ts

/-- `arg.split('=')[1]`: the text between the first and the second `=` of
the flag token. -/
def flagValue (arg : List Char) : List Char :=
  (splitOnChar '=' arg).getD 1 []

/-- The flag prefix `--colorSpace=`. -/
def colorSpaceFlag : List Char := ("--colorSpace=").toList

/-- `main` (src/cli.ts:206-236): command dispatch and flag validation.
An invalid flag value exits with code 1 before `apply` ever runs. -/
def mainRun (args : List (List Char)) (file : Option ConfigFile)
    (answer : String) : RunResult :=
  if args.headD [] = ("apply").toList then
    match args.find? (fun a => colorSpaceFlag.isPrefixOf a) with
    | some arg =>
      if flagValue arg = ("displayP3").toList then
        applyRun file (some .displayP3) answer
      else if flagValue arg = ("SRGB").toList then
        applyRun file (some .SRGB) answer
      else ⟨1, none, [.invalidColorSpace]⟩
    | none => applyRun file none answer
  else ⟨0, none, [.usage]⟩

/-- Whether a JSON value is an object. -/
def isObjB : Json → Bool
  | .obj _ => true
  | _ => false

/-- The data-format documents on which `modifyAppJson` behaves as a
structured patcher: the top-level `expo` binding, when present and truthy,
is an object.  (A truthy non-object `expo` either raises a `TypeError` or
— for an array — is silently written back unchanged.) -/
def expoOkB (kvs : List (String × Json)) : Bool :=
  match jlookup kvs "expo" with
  | none => true
  | some v => !truthy v || isObjB v

/-- The plugins elements a document holds before the patch: the elements
of `expo.plugins` when that path is bound to a list, and the empty list
otherwise (the path absent, or a falsy value the patcher replaces by a
fresh `[]`).  A successful structured patch appends the new entry to
exactly these elements. -/
def priorPlugins (kvs : List (String × Json)) : List Json :=
  match jlookup kvs "expo" with
  | some (.obj ekvs) =>
    match jlookup ekvs "plugins" with
    | some (.arr xs) => xs
    | _ => []
  | _ => []

/-- The spec's structured detection rule, modelled from its words for
comparison with the source's `pluginMatches`: "a bare identifier string
equal to the target, or a two-element structure whose first element
equals the target identifier". -/
def specPluginMatch : Json → Bool
  | .str s => s == pluginId
  | .arr [.str s, _] => s == pluginId
  | _ => false

/-- The spec's code-format scenario input:
`module.exports = { expo: { plugins: [] } }`. -/
def scenarioJs : List Char :=
  ("module.exports = \x7b expo: \x7b plugins: [] \x7d \x7d").toList

/-- The text the patcher writes for the scenario with `displayP3`. -/
def scenarioJsOut : List Char :=
  ("module.exports = \x7b expo: \x7b plugins: [\n      [\"expo-color-space-plugin\", \x7b \"colorSpace\": \"displayP3\" \x7d],] \x7d \x7d").toList

/-- The invocation `apply --colorSpace=SRGB=extra`: the flag value is not
exactly one of the two admissible strings, yet `split('=')[1]` recovers
`SRGB`. -/
def c7Args : List (List Char) :=
  [("apply").toList, ("--colorSpace=SRGB=extra").toList]

/-- A well-formed `app.json` world for the C7 counterexample. -/
def c7File : ConfigFile := .appJson (.ok (.obj [("expo", .obj [])]))

/-- Whether a JSON value is an array (`Array.isArray`). -/
def isArrB : Json → Bool
  | .arr _ => true
  | _ => false

/-- The C10 counterexample document `{"expo":{"plugins":""}}`. -/
def c10cexKvs : List (String × Json) := [("expo", .obj [("plugins", .str "")])]

/-- The spec's data-format scenario input `{"expo":{"name":"X"}}`. -/
def scenarioJsonKvs : List (String × Json) :=
  [("expo", .obj [("name", .str "X")])]

/-- The exact text written for the data-format scenario with SRGB: the
document with the entry appended, serialized with 2-space indentation and
a trailing newline. -/
def scenarioJsonOut : List Char :=
  ("\x7b\n  \"expo\": \x7b\n    \"name\": \"X\",\n    \"plugins\": [\n      [\n        \"expo-color-space-plugin\",\n        \x7b\n          \"colorSpace\": \"SRGB\"\n        \x7d\n      ]\n    ]\n  \x7d\n\x7d\n").toList

/-- The document written for the data-format scenario. -/
def c2wDoc : Json :=
  .obj [("expo", .obj [("name", .str "X"),
    ("plugins", .arr [entryJson .SRGB])])]

/-- A data-format input with a pre-existing plugins element and a second
top-level key. -/
def c2wPriorKvs : List (String × Json) :=
  [("expo", .obj [("name", .str "X"),
    ("plugins", .arr [.str "other-plugin"])]), ("extra", .num 1)]

/-- The document written for `c2wPriorKvs` with SRGB: the pre-existing
plugins element is kept in place, the entry is appended after it, and the
other top-level key is untouched. -/
def c2wPriorDoc : Json :=
  .obj [("expo", .obj [("name", .str "X"),
    ("plugins", .arr [.str "other-plugin", entryJson .SRGB])]),
    ("extra", .num 1)]

/-- The document `{"expo":[]}` (an object whose `expo` value is an array). -/
def expoArrayKvs : List (String × Json) := [("expo", .arr [])]

/-- Whether a plugins-list element is exactly the entry for `cs`. -/
def isEntryFor (cs : ColorSpace) : Json → Bool
  | .arr [.str s, .obj [(k, .str v)]] =>
      s == pluginId && k == "colorSpace" && v == cs.toStr
  | _ => false

/-- Whether a `modifyAppJson` result wrote a document whose `expo` object
holds a plugins list containing the entry for `cs`. -/
def writtenHasEntry (r : JsonPatchResult) (cs : ColorSpace) : Bool :=
  match r with
  | .written (.obj kvs) =>
    match jlookup kvs "expo" with
    | some (.obj ekvs) =>
      match jlookup ekvs "plugins" with
      | some (.arr xs) => xs.any (isEntryFor cs)
      | _ => false
    | _ => false
  | _ => false

/-- A document in which the entry is already present. -/
def presentKvs : List (String × Json) :=
  [("expo", .obj [("plugins", .arr [.str pluginId])])]

theorem jlookup_setKey_self (kvs : List (String × Json)) (k : String)
    (v : Json) : jlookup (setKey kvs k v) k = some v := by
  induction kvs with
  | nil => simp [setKey, jlookup]
  | cons h t ih =>
    obtain ⟨k', w⟩ := h
    by_cases hk : k' = k <;> simp [setKey, jlookup, hk, ih]

theorem jlookup_setKey_ne (kvs : List (String × Json)) (k k' : String)
    (v : Json) (h : k' ≠ k) :
    jlookup (setKey kvs k v) k' = jlookup kvs k' := by
  induction kvs with
  | nil =>
    have h' : ¬k = k' := fun hk => h hk.symm
    simp [setKey, jlookup, h']
  | cons hd t ih =>
    obtain ⟨k'', w⟩ := hd
    by_cases hk : k'' = k
    · subst hk
      have h2 : ¬k'' = k' := fun hk2 => h hk2.symm
      simp [setKey, jlookup, h2]
    · simp [setKey, hk, jlookup, ih]

theorem pluginMatches_entry (cs : ColorSpace) :
    pluginMatches (entryJson cs) = true := by
  cases cs <;> rfl

theorem entry_not_mem_of_not_detected {xs : List Json} {cs : ColorSpace}
    (h : isPluginInConfig (.arr xs) = false) : entryJson cs ∉ xs := by
  intro hm
  have hany : xs.any pluginMatches = true :=
    List.any_eq_true.mpr ⟨entryJson cs, hm, pluginMatches_entry cs⟩
  simp only [isPluginInConfig] at h
  rw [h] at hany
  exact Bool.false_ne_true hany

theorem detect_append_entry (xs : List Json) (cs : ColorSpace) :
    isPluginInConfig (.arr (xs ++ [entryJson cs])) = true := by
  simp only [isPluginInConfig]
  exact List.any_eq_true.mpr
    ⟨entryJson cs, by simp, pluginMatches_entry cs⟩

theorem ensureKey_absent {kvs : List (String × Json)} {key : String}
    (d : Json) (h : jlookup kvs key = none) :
    ensureKey kvs key d = setKey kvs key d := by
  simp [ensureKey, h]

theorem ensureKey_falsy {kvs : List (String × Json)} {key : String}
    {v : Json} (d : Json) (h : jlookup kvs key = some v)
    (hv : truthy v = false) : ensureKey kvs key d = setKey kvs key d := by
  simp [ensureKey, h, hv]

theorem ensureKey_truthy {kvs : List (String × Json)} {key : String}
    {v : Json} (d : Json) (h : jlookup kvs key = some v)
    (hv : truthy v = true) : ensureKey kvs key d = kvs := by
  simp [ensureKey, h, hv]

theorem modifyAppJson_detects {kvs ekvs : List (String × Json)}
    {xs : List Json} (cs : ColorSpace)
    (h1 : jlookup kvs "expo" = some (.obj ekvs))
    (h2 : jlookup ekvs "plugins" = some (.arr xs))
    (h3 : isPluginInConfig (.arr xs) = true) :
    modifyAppJson (.ok (.obj kvs)) cs = .alreadyConfigured := by
  simp only [modifyAppJson, ensureKey_truthy _ h1 rfl, h1,
    ensureKey_truthy _ h2 rfl, h2, h3, if_true]

theorem modifyAppJson_written {kvs : List (String × Json)} {cs : ColorSpace}
    {doc' : Json} (hok : expoOkB kvs = true)
    (hw : modifyAppJson (.ok (.obj kvs)) cs = .written doc') :
    ∃ kvs' ekvs',
      doc' = .obj kvs' ∧
      jlookup kvs' "expo" = some (.obj ekvs') ∧
      jlookup ekvs' "plugins" =
        some (.arr (priorPlugins kvs ++ [entryJson cs])) ∧
      isPluginInConfig (.arr (priorPlugins kvs)) = false ∧
      ∀ k, k ≠ "expo" → jlookup kvs' k = jlookup kvs k := by
  have fresh :
      ensureKey kvs "expo" (.obj []) = setKey kvs "expo" (.obj []) →
      priorPlugins kvs = [] →
      ∃ kvs' ekvs',
        doc' = .obj kvs' ∧
        jlookup kvs' "expo" = some (.obj ekvs') ∧
        jlookup ekvs' "plugins" =
          some (.arr (priorPlugins kvs ++ [entryJson cs])) ∧
        isPluginInConfig (.arr (priorPlugins kvs)) = false ∧
        ∀ k, k ≠ "expo" → jlookup kvs' k = jlookup kvs k := by
    intro hek hpp
    rw [hpp]
    have hmod : modifyAppJson (.ok (.obj kvs)) cs =
        .written (.obj (setKey (setKey kvs "expo" (.obj [])) "expo"
          (.obj [("plugins", .arr ([] ++ [entryJson cs]))]))) := by
      simp only [modifyAppJson, hek, jlookup_setKey_self]
      rfl
    rw [hmod] at hw
    injection hw with hdoc
    refine ⟨_, _, hdoc.symm, jlookup_setKey_self .., rfl, rfl, fun k hk => ?_⟩
    rw [jlookup_setKey_ne _ _ _ _ hk, jlookup_setKey_ne _ _ _ _ hk]
  cases hE : jlookup kvs "expo" with
  | none => exact fresh (ensureKey_absent _ hE) (by simp [priorPlugins, hE])
  | some v =>
    cases hv : truthy v with
    | false =>
      refine fresh (ensureKey_falsy _ hE hv) ?_
      cases v with
      | null => simp [priorPlugins, hE]
      | bool b => simp [priorPlugins, hE]
      | num n => simp [priorPlugins, hE]
      | str s => simp [priorPlugins, hE]
      | arr l => exact absurd hv (by simp [truthy])
      | obj l => exact absurd hv (by simp [truthy])
    | true =>
      have hobj : isObjB v = true := by
        simp only [expoOkB, hE, hv, Bool.not_true, Bool.false_or] at hok
        exact hok
      cases v with
      | null => exact absurd hobj (by simp [isObjB])
      | bool b => exact absurd hobj (by simp [isObjB])
      | num n => exact absurd hobj (by simp [isObjB])
      | str s => exact absurd hobj (by simp [isObjB])
      | arr xs => exact absurd hobj (by simp [isObjB])
      | obj ekvs =>
        have hek : ensureKey kvs "expo" (.obj []) = kvs := ensureKey_truthy _ hE hv
        have freshP :
            ensureKey ekvs "plugins" (.arr []) = setKey ekvs "plugins" (.arr []) →
            priorPlugins kvs = [] →
            ∃ kvs' ekvs',
              doc' = .obj kvs' ∧
              jlookup kvs' "expo" = some (.obj ekvs') ∧
              jlookup ekvs' "plugins" =
                some (.arr (priorPlugins kvs ++ [entryJson cs])) ∧
              isPluginInConfig (.arr (priorPlugins kvs)) = false ∧
              ∀ k, k ≠ "expo" → jlookup kvs' k = jlookup kvs k := by
          intro hep hpp
          rw [hpp]
          have hmod : modifyAppJson (.ok (.obj kvs)) cs =
              .written (.obj (setKey kvs "expo"
                (.obj (setKey (setKey ekvs "plugins" (.arr [])) "plugins"
                  (.arr ([] ++ [entryJson cs])))))) := by
            simp only [modifyAppJson, hek, hE, hep, jlookup_setKey_self]
            rfl
          rw [hmod] at hw
          injection hw with hdoc
          exact ⟨_, _, hdoc.symm, jlookup_setKey_self .., jlookup_setKey_self .., rfl,
            fun k hk => jlookup_setKey_ne _ _ _ _ hk⟩
        cases hP : jlookup ekvs "plugins" with
        | none =>
          exact freshP (ensureKey_absent _ hP) (by simp [priorPlugins, hE, hP])
        | some p =>
          cases hp : truthy p with
          | false =>
            refine freshP (ensureKey_falsy _ hP hp) ?_
            cases p with
            | null => simp [priorPlugins, hE, hP]
            | bool b => simp [priorPlugins, hE, hP]
            | num n => simp [priorPlugins, hE, hP]
            | str s => simp [priorPlugins, hE, hP]
            | arr l => exact absurd hp (by simp [truthy])
            | obj l => exact absurd hp (by simp [truthy])
          | true =>
            have hep : ensureKey ekvs "plugins" (.arr []) = ekvs :=
              ensureKey_truthy _ hP hp
            cases hd : isPluginInConfig p with
            | true =>
              exfalso
              have hmod : modifyAppJson (.ok (.obj kvs)) cs = .alreadyConfigured := by
                simp only [modifyAppJson, hek, hE, hep, hP, hd]
                rfl
              rw [hmod] at hw
              exact JsonPatchResult.noConfusion hw
            | false =>
              cases p with
              | null => simp [truthy] at hp
              | arr xs =>
                have hpp : priorPlugins kvs = xs := by
                  simp [priorPlugins, hE, hP]
                rw [hpp]
                have hmod : modifyAppJson (.ok (.obj kvs)) cs =
                    .written (.obj (setKey kvs "expo"
                      (.obj (setKey ekvs "plugins" (.arr (xs ++ [entryJson cs])))))) := by
                  simp only [modifyAppJson, hek, hE, hep, hP, hd]
                  rfl
                rw [hmod] at hw
                injection hw with hdoc
                exact ⟨_, _, hdoc.symm, jlookup_setKey_self .., jlookup_setKey_self ..,
                  hd, fun k hk => jlookup_setKey_ne _ _ _ _ hk⟩
              | bool b =>
                exfalso
                have hmod : modifyAppJson (.ok (.obj kvs)) cs = .failed .typeError := by
                  simp only [modifyAppJson, hek, hE, hep, hP]
                  rfl
                rw [hmod] at hw
                exact JsonPatchResult.noConfusion hw
              | num n =>
                exfalso
                have hmod : modifyAppJson (.ok (.obj kvs)) cs = .failed .typeError := by
                  simp only [modifyAppJson, hek, hE, hep, hP]
                  rfl
                rw [hmod] at hw
                exact JsonPatchResult.noConfusion hw
              | str s =>
                exfalso
                have hmod : modifyAppJson (.ok (.obj kvs)) cs = .failed .typeError := by
                  simp only [modifyAppJson, hek, hE, hep, hP]
                  rfl
                rw [hmod] at hw
                exact JsonPatchResult.noConfusion hw
              | obj fs =>
                exfalso
                have hmod : modifyAppJson (.ok (.obj kvs)) cs = .failed .typeError := by
                  simp only [modifyAppJson, hek, hE, hep, hP]
                  rfl
                rw [hmod] at hw
                exact JsonPatchResult.noConfusion hw

theorem takeWhile_append_not {p : Char → Bool} {ws : List Char} {c : Char}
    (hws : ws.all p = true) (hc : p c = false) (l : List Char) :
    (ws ++ c :: l).takeWhile p = ws := by
  induction ws with
  | nil => simp [List.takeWhile_cons, hc]
  | cons w t ih =>
    simp only [List.all_cons, Bool.and_eq_true] at hws
    simp [List.takeWhile_cons, hws.1, ih hws.2]

theorem dropWhile_append_not {p : Char → Bool} {ws : List Char} {c : Char}
    (hws : ws.all p = true) (hc : p c = false) (l : List Char) :
    (ws ++ c :: l).dropWhile p = c :: l := by
  induction ws with
  | nil => simp [List.dropWhile_cons, hc]
  | cons w t ih =>
    simp only [List.all_cons, Bool.and_eq_true] at hws
    simp [List.dropWhile_cons, hws.1, ih hws.2]

theorem matchKeyAt_some {key : List Char} {op : Char} {s ws rest : List Char}
    (h : matchKeyAt key op s = some (ws, rest)) :
    s = key ++ ws ++ op :: rest ∧ ws.all isJsWs = true := by
  unfold matchKeyAt at h
  by_cases hpre : key.isPrefixOf s
  · rw [if_pos hpre] at h
    obtain ⟨t, ht⟩ := List.isPrefixOf_iff_prefix.mp hpre
    subst ht
    simp only [List.drop_left] at h
    cases hdw : t.dropWhile isJsWs with
    | nil =>
      simp only [hdw] at h
      exact absurd h (by simp)
    | cons c r =>
      simp only [hdw] at h
      by_cases hc : c = op
      · rw [if_pos hc] at h
        injection h with h'
        injection h' with h1 h2
        subst hc
        constructor
        · conv_lhs => rw [← List.takeWhile_append_dropWhile (p := isJsWs) (l := t)]
          rw [hdw, ← h1, ← h2, List.append_assoc]
        · rw [← h1]
          exact List.all_eq_true.mpr fun x hx => List.mem_takeWhile_imp hx
      · rw [if_neg hc] at h
        exact absurd h (by simp)
  · rw [if_neg hpre] at h
    exact absurd h (by simp)

theorem matchKeyAt_at_anchor {key ws rest : List Char} {op : Char}
    (hop : isJsWs op = false) (hws : ws.all isJsWs = true) :
    matchKeyAt key op (key ++ ws ++ op :: rest) = some (ws, rest) := by
  unfold matchKeyAt
  rw [List.append_assoc]
  have hpre : key.isPrefixOf (key ++ (ws ++ op :: rest)) = true :=
    List.isPrefixOf_iff_prefix.mpr ⟨_, rfl⟩
  rw [if_pos hpre]
  simp only [List.drop_left, dropWhile_append_not hws hop,
    takeWhile_append_not hws hop]
  simp

theorem findReplace_some {key ins : List Char} {op : Char} :
    ∀ {content out : List Char},
      findReplace key op ins content = some out →
      ∃ pre ws rest, content = pre ++ (key ++ ws ++ op :: rest) ∧
        ws.all isJsWs = true ∧
        out = pre ++ (key ++ ws ++ op :: (ins ++ rest)) := by
  intro content
  induction content with
  | nil => intro out h; simp [findReplace] at h
  | cons c cs ih =>
    intro out h
    unfold findReplace at h
    cases hm : matchKeyAt key op (c :: cs) with
    | some pr =>
      obtain ⟨ws, rest⟩ := pr
      rw [hm] at h
      injection h with hout
      obtain ⟨hs, hall⟩ := matchKeyAt_some hm
      exact ⟨[], ws, rest, by simpa [List.append_assoc] using hs, hall,
        by simp [← hout, List.append_assoc]⟩
    | none =>
      rw [hm] at h
      cases hf : findReplace key op ins cs with
      | none => rw [hf] at h; exact absurd h (by simp)
      | some o =>
        rw [hf] at h
        simp only [Option.map_some] at h
        injection h with hout
        obtain ⟨pre, ws, rest, h1, h2, h3⟩ := ih hf
        exact ⟨c :: pre, ws, rest, by simp [h1], h2, by simp [← hout, h3]⟩

theorem findReplace_isSome_eq {key ins : List Char} {op : Char} :
    ∀ content : List Char,
      (findReplace key op ins content).isSome = hasAnchor key op content := by
  intro content
  induction content with
  | nil => rfl
  | cons c cs ih =>
    unfold findReplace hasAnchor
    cases hm : matchKeyAt key op (c :: cs) with
    | some pr => simp
    | none => simpa using ih

theorem hasAnchor_cons (key : List Char) (op : Char) (c : Char)
    (cs : List Char) :
    hasAnchor key op (c :: cs) =
      ((matchKeyAt key op (c :: cs)).isSome || hasAnchor key op cs) := rfl

theorem hasAnchor_of_split {key : List Char} {op : Char}
    (hop : isJsWs op = false) :
    ∀ (pre : List Char) {ws rest : List Char}, ws.all isJsWs = true →
      hasAnchor key op (pre ++ (key ++ ws ++ op :: rest)) = true := by
  intro pre
  induction pre with
  | nil =>
    intro ws rest hws
    have hm := @matchKeyAt_at_anchor key ws rest op hop hws
    rw [List.nil_append]
    rcases hk : key ++ ws ++ op :: rest with _ | ⟨c, cs⟩
    · exact absurd hk (by simp)
    · rw [hasAnchor_cons, ← hk, hm]
      simp
  | cons p ps ih =>
    intro ws rest hws
    rw [List.cons_append, hasAnchor_cons, ih hws]
    simp

theorem includes_correct {needle : List Char} :
    ∀ {hay : List Char}, includes needle hay = true ↔ needle <:+: hay := by
  intro hay
  induction hay with
  | nil => simp [includes, List.infix_nil, List.isPrefixOf_iff_prefix]
  | cons c t ih =>
    simp [includes, Bool.or_eq_true, ih, List.infix_cons_iff,
      List.isPrefixOf_iff_prefix]

theorem includes_append_of_includes {needle mid : List Char}
    (h : includes needle mid = true) (pre rest : List Char) :
    includes needle (pre ++ (mid ++ rest)) = true := by
  rw [includes_correct] at h ⊢
  exact h.trans (List.infix_append' pre mid rest)

theorem includes_id_listEntry (cs : ColorSpace) :
    includes pluginIdText (insertedListEntry cs) = true := by
  cases cs <;> rfl

theorem includes_id_pluginsBlock (cs : ColorSpace) :
    includes pluginIdText (insertedPluginsBlock cs) = true := by
  cases cs <;> rfl

theorem modifyAppConfigJs_already {content : List Char} (cs : ColorSpace)
    (h : includes pluginIdText content = true) :
    modifyAppConfigJs content cs = .alreadyConfigured := by
  unfold modifyAppConfigJs
  rw [if_pos h]

theorem modifyAppConfigJs_written {content out : List Char} {cs : ColorSpace}
    (h : modifyAppConfigJs content cs = .written out) :
    ∃ pre ins rest, content = pre ++ rest ∧ out = pre ++ (ins ++ rest) ∧
      (ins = insertedListEntry cs ∨ ins = insertedPluginsBlock cs) := by
  unfold modifyAppConfigJs at h
  by_cases hin : includes pluginIdText content = true
  · rw [if_pos hin] at h
    exact absurd h (by simp)
  · rw [if_neg hin] at h
    cases h1 : findReplace pluginsKeyBare '[' (insertedListEntry cs) content with
    | some o =>
      rw [h1] at h
      injection h with hout
      subst hout
      obtain ⟨pre, ws, rest, hc, _, hres⟩ := findReplace_some h1
      refine ⟨pre ++ (pluginsKeyBare ++ ws ++ ['[']), insertedListEntry cs, rest,
        ?_, ?_, .inl rfl⟩
      · rw [hc]; simp [List.append_assoc]
      · rw [hres]; simp [List.append_assoc]
    | none =>
      rw [h1] at h
      cases h2 : findReplace pluginsKeyQuoted '[' (insertedListEntry cs) content with
      | some o =>
        rw [h2] at h
        injection h with hout
        subst hout
        obtain ⟨pre, ws, rest, hc, _, hres⟩ := findReplace_some h2
        refine ⟨pre ++ (pluginsKeyQuoted ++ ws ++ ['[']), insertedListEntry cs, rest,
          ?_, ?_, .inl rfl⟩
        · rw [hc]; simp [List.append_assoc]
        · rw [hres]; simp [List.append_assoc]
      | none =>
        rw [h2] at h
        cases h3 : findReplace expoKeyText '\x7b' (insertedPluginsBlock cs) content with
        | some o =>
          rw [h3] at h
          injection h with hout
          subst hout
          obtain ⟨pre, ws, rest, hc, _, hres⟩ := findReplace_some h3
          refine ⟨pre ++ (expoKeyText ++ ws ++ ['\x7b']), insertedPluginsBlock cs, rest,
            ?_, ?_, .inr rfl⟩
          · rw [hc]; simp [List.append_assoc]
          · rw [hres]; simp [List.append_assoc]
        | none =>
          rw [h3] at h
          exact absurd h (by simp)

theorem modifyAppConfigJs_written_includes {content out : List Char}
    {cs : ColorSpace} (h : modifyAppConfigJs content cs = .written out) :
    includes pluginIdText out = true := by
  obtain ⟨pre, ins, rest, _, hout, hins⟩ := modifyAppConfigJs_written h
  subst hout
  rcases hins with rfl | rfl
  · exact includes_append_of_includes (includes_id_listEntry cs) _ _
  · exact includes_append_of_includes (includes_id_pluginsBlock cs) _ _

/-- C8, corrected: the source detects an entry if and only if the plugins
list contains the bare identifier string or a NON-EMPTY array whose first
element is the identifier string — the array's length is not required to
be two (and any extra elements and the options payload are ignored). -/
theorem c8_detection_rule (ps : List Json) :
    isPluginInConfig (.arr ps) = true ↔
      ∃ p ∈ ps, p = Json.str pluginId ∨
        ∃ tl, p = Json.arr (Json.str pluginId :: tl) := by
  simp only [isPluginInConfig, List.any_eq_true]
  constructor
  · rintro ⟨p, hp, hm⟩
    refine ⟨p, hp, ?_⟩
    cases p with
    | str s =>
      left
      simp only [pluginMatches, beq_iff_eq] at hm
      rw [hm]
    | arr l =>
      cases l with
      | nil => exact Bool.noConfusion hm
      | cons hd tl =>
        cases hd with
        | str s =>
          right
          simp only [pluginMatches, beq_iff_eq] at hm
          exact ⟨tl, by rw [hm]⟩
        | null => exact Bool.noConfusion hm
        | bool b => exact Bool.noConfusion hm
        | num n => exact Bool.noConfusion hm
        | arr l2 => exact Bool.noConfusion hm
        | obj fs => exact Bool.noConfusion hm
    | null => exact Bool.noConfusion hm
    | bool b => exact Bool.noConfusion hm
    | num n => exact Bool.noConfusion hm
    | obj fs => exact Bool.noConfusion hm
  · rintro ⟨p, hp, rfl | ⟨tl, rfl⟩⟩
    · exact ⟨_, hp, by simp [pluginMatches]⟩
    · exact ⟨_, hp, by simp [pluginMatches]⟩

/-- C8 counterexample: a plugins list whose sole element is the
ONE-element array `["expo-color-space-plugin"]` is detected by the code,
yet it matches neither of the spec's two shapes (it is not the bare
string and not a two-element structure). -/
theorem c8_counterexample :
    isPluginInConfig (.arr [Json.arr [Json.str pluginId]]) = true ∧
    ([Json.arr [Json.str pluginId]].any specPluginMatch) = false :=
  ⟨rfl, rfl⟩

/-- C4: code-format frame property — whenever the text patch succeeds, the
output is the input with one fragment spliced in at a single position;
every byte outside that fragment is preserved in order, and the fragment
is one of the two fixed insertion texts. -/
theorem c4_text_frame (content : List Char) (cs : ColorSpace)
    (out : List Char) (h : modifyAppConfigJs content cs = .written out) :
    ∃ pre ins rest, content = pre ++ rest ∧ out = pre ++ (ins ++ rest) ∧
      (ins = insertedListEntry cs ∨ ins = insertedPluginsBlock cs) :=
  modifyAppConfigJs_written h

/-- C4 witness at the spec's scenario input. -/
theorem c4_text_frame_witness :
    ∃ pre ins rest, scenarioJs = pre ++ rest ∧
      scenarioJsOut = pre ++ (ins ++ rest) ∧
      (ins = insertedListEntry .displayP3 ∨ ins = insertedPluginsBlock .displayP3) :=
  c4_text_frame scenarioJs .displayP3 scenarioJsOut (by decide)

/-- `findReplace` finds nothing exactly when `hasAnchor` is false. -/
theorem findReplace_eq_none_of_no_anchor {key ins : List Char} {op : Char}
    {content : List Char} (h : hasAnchor key op content = false) :
    findReplace key op ins content = none := by
  cases hf : findReplace key op ins content with
  | none => rfl
  | some o =>
    have hiso := @findReplace_isSome_eq key ins op content
    rw [hf, h] at hiso
    exact Bool.noConfusion hiso

/-- C5: graceful degradation on no anchor — when the identifier is absent
and none of the three anchors matches, the patcher returns "not
modified", the run prints the literal entry text as manual guidance,
writes nothing and exits with code 0. -/
theorem c5_no_anchor (content : List Char) (cs : ColorSpace) (answer : String)
    (hnot : includes pluginIdText content = false)
    (h1 : hasAnchor pluginsKeyBare '[' content = false)
    (h2 : hasAnchor pluginsKeyQuoted '[' content = false)
    (h3 : hasAnchor expoKeyText '\x7b' content = false) :
    modifyAppConfigJs content cs = .notModified ∧
    applyRun (some (.appConfigJs content)) (some cs) answer =
      ⟨0, none, [.foundConfig, .manualGuidance (pluginEntryText cs)]⟩ := by
  have hmod : modifyAppConfigJs content cs = .notModified := by
    unfold modifyAppConfigJs
    rw [if_neg (by simp [hnot]), findReplace_eq_none_of_no_anchor h1,
      findReplace_eq_none_of_no_anchor h2, findReplace_eq_none_of_no_anchor h3]
  exact ⟨hmod, by simp [applyRun, patchFile, hmod]⟩

/-- C5 witness: a file with no plugins array, no quoted plugins key and no
expo object. -/
theorem c5_no_anchor_witness :
    modifyAppConfigJs (("export default 42;").toList) .displayP3 = .notModified ∧
    applyRun (some (.appConfigJs (("export default 42;").toList)))
        (some .displayP3) "" =
      ⟨0, none, [.foundConfig, .manualGuidance (pluginEntryText .displayP3)]⟩ :=
  c5_no_anchor (("export default 42;").toList) .displayP3 "" rfl rfl rfl rfl

/-- C3: text-patcher anchor policy — with the entry absent, the three
anchors are tried in the fixed order (unquoted `plugins: [`, quoted
`"plugins": [`, then `expo: {`); only the first that matches is applied,
and the spliced-in text is exactly the fixed template followed by a
comma (as a new first element after a plugins-list token) respectively
the new plugins declaration containing the template (after the
expo-object token). -/
theorem c3_anchor_policy (content : List Char) (cs : ColorSpace)
    (hnot : includes pluginIdText content = false) :
    (hasAnchor pluginsKeyBare '[' content = true →
      ∃ pre ws rest, content = pre ++ (pluginsKeyBare ++ ws ++ '[' :: rest) ∧
        ws.all isJsWs = true ∧
        modifyAppConfigJs content cs = .written
          (pre ++ (pluginsKeyBare ++ ws ++ '[' :: (insertedListEntry cs ++ rest)))) ∧
    (hasAnchor pluginsKeyBare '[' content = false →
      hasAnchor pluginsKeyQuoted '[' content = true →
      ∃ pre ws rest, content = pre ++ (pluginsKeyQuoted ++ ws ++ '[' :: rest) ∧
        ws.all isJsWs = true ∧
        modifyAppConfigJs content cs = .written
          (pre ++ (pluginsKeyQuoted ++ ws ++ '[' :: (insertedListEntry cs ++ rest)))) ∧
    (hasAnchor pluginsKeyBare '[' content = false →
      hasAnchor pluginsKeyQuoted '[' content = false →
      hasAnchor expoKeyText '\x7b' content = true →
      ∃ pre ws rest, content = pre ++ (expoKeyText ++ ws ++ '\x7b' :: rest) ∧
        ws.all isJsWs = true ∧
        modifyAppConfigJs content cs = .written
          (pre ++ (expoKeyText ++ ws ++ '\x7b' :: (insertedPluginsBlock cs ++ rest)))) := by
  have hIf : ¬(includes pluginIdText content = true) := by simp [hnot]
  refine ⟨?_, ?_, ?_⟩
  · intro h1
    cases hf : findReplace pluginsKeyBare '[' (insertedListEntry cs) content with
    | none =>
      have hiso := @findReplace_isSome_eq pluginsKeyBare
        (insertedListEntry cs) '[' content
      rw [hf, h1] at hiso
      exact absurd hiso (by simp)
    | some o =>
      obtain ⟨pre, ws, rest, hc, hall, hout⟩ := findReplace_some hf
      refine ⟨pre, ws, rest, hc, hall, ?_⟩
      unfold modifyAppConfigJs
      rw [if_neg hIf, hf, hout]
  · intro h1 h2
    have hn1 := @findReplace_eq_none_of_no_anchor pluginsKeyBare
      (insertedListEntry cs) '[' content h1
    cases hf : findReplace pluginsKeyQuoted '[' (insertedListEntry cs) content with
    | none =>
      have hiso := @findReplace_isSome_eq pluginsKeyQuoted
        (insertedListEntry cs) '[' content
      rw [hf, h2] at hiso
      exact absurd hiso (by simp)
    | some o =>
      obtain ⟨pre, ws, rest, hc, hall, hout⟩ := findReplace_some hf
      refine ⟨pre, ws, rest, hc, hall, ?_⟩
      unfold modifyAppConfigJs
      rw [if_neg hIf, hn1, hf, hout]
  · intro h1 h2 h3
    have hn1 := @findReplace_eq_none_of_no_anchor pluginsKeyBare
      (insertedListEntry cs) '[' content h1
    have hn2 := @findReplace_eq_none_of_no_anchor pluginsKeyQuoted
      (insertedListEntry cs) '[' content h2
    cases hf : findReplace expoKeyText '\x7b' (insertedPluginsBlock cs) content with
    | none =>
      have hiso := @findReplace_isSome_eq expoKeyText
        (insertedPluginsBlock cs) '\x7b' content
      rw [hf, h3] at hiso
      exact absurd hiso (by simp)
    | some o =>
      obtain ⟨pre, ws, rest, hc, hall, hout⟩ := findReplace_some hf
      refine ⟨pre, ws, rest, hc, hall, ?_⟩
      unfold modifyAppConfigJs
      rw [if_neg hIf, hn1, hn2, hf, hout]

/-- C3 witness: on the spec's scenario file the first anchor applies. -/
theorem c3_anchor_policy_witness :
    ∃ pre ws rest, scenarioJs = pre ++ (pluginsKeyBare ++ ws ++ '[' :: rest) ∧
      ws.all isJsWs = true ∧
      modifyAppConfigJs scenarioJs .displayP3 = .written
        (pre ++ (pluginsKeyBare ++ ws ++ '[' ::
          (insertedListEntry .displayP3 ++ rest))) :=
  (c3_anchor_policy scenarioJs .displayP3 rfl).1 rfl

/-- C6: parse-error atomicity — when the located data-format file's
content is not well-formed JSON, the run exits with code 1, reports the
wrapped parse failure (`Failed to modify app.json: ...` around the
underlying error) and never writes the file. -/
theorem c6_parse_error (e : String) (optCS : Option ColorSpace)
    (answer : String) :
    (applyRun (some (.appJson (.error e))) optCS answer).exitCode = 1 ∧
    (applyRun (some (.appJson (.error e))) optCS answer).written = none ∧
    Msg.errorReported (.failedModifyAppJson (.parseError e)) ∈
      (applyRun (some (.appJson (.error e))) optCS answer).events := by
  cases optCS <;> simp [applyRun, patchFile, modifyAppJson]

/-- C7 counterexample: with `--colorSpace=SRGB=extra` — a value that is
not exactly `displayP3` or `SRGB` — the process does NOT exit non-zero:
`split('=')[1]` yields `SRGB`, the run proceeds and writes the file. -/
theorem c7_counterexample :
    (mainRun c7Args (some c7File) "1").exitCode = 0 ∧
    (mainRun c7Args (some c7File) "1").written.isSome = true := ⟨rfl, rfl⟩

/-- C7, corrected: the value the source validates is `split('=')[1]` — the
text between the first and second `=` of the flag token.  Whenever that
segment is neither `displayP3` nor `SRGB`, the process exits with code 1
before any configuration file is read or written (the result does not
depend on the file state at all). -/
theorem c7_invalid_flag (v : List Char) (file : Option ConfigFile)
    (answer : String)
    (h1 : flagValue (colorSpaceFlag ++ v) ≠ ("displayP3").toList)
    (h2 : flagValue (colorSpaceFlag ++ v) ≠ ("SRGB").toList) :
    mainRun [("apply").toList, colorSpaceFlag ++ v] file answer =
      ⟨1, none, [.invalidColorSpace]⟩ := by
  have hpre2 : colorSpaceFlag.isPrefixOf (colorSpaceFlag ++ v) = true :=
    List.isPrefixOf_iff_prefix.mpr ⟨_, rfl⟩
  unfold mainRun
  rw [if_pos (show ([("apply").toList, colorSpaceFlag ++ v].headD []) =
    ("apply").toList from rfl)]
  rw [List.find?_cons_of_neg _ (by decide), List.find?_cons_of_pos _ hpre2]
  show (if flagValue (colorSpaceFlag ++ v) = ("displayP3").toList then
      applyRun file (some .displayP3) answer
    else if flagValue (colorSpaceFlag ++ v) = ("SRGB").toList then
      applyRun file (some .SRGB) answer
    else ⟨1, none, [.invalidColorSpace]⟩) = ⟨1, none, [.invalidColorSpace]⟩
  rw [if_neg h1, if_neg h2]

/-- C7 witness: `--colorSpace=foo` is rejected with exit code 1 and no
file access, whatever the file state. -/
theorem c7_invalid_flag_witness :
    mainRun [("apply").toList, colorSpaceFlag ++ ("foo").toList] none "" =
      ⟨1, none, [.invalidColorSpace]⟩ :=
  c7_invalid_flag (("foo").toList) none "" (by decide) (by decide)

/-- C10, corrected: when `expo.plugins` exists, is TRUTHY and is not an
array, the push attempt throws, the error is wrapped in the
`Failed to modify app.json` message, the process exits with code 1 and
the file is never written.  (Detection is automatically false for a
non-array, so no detection hypothesis is needed.)  Falsy values —
`null`, `false`, `0`, `""` — are instead silently replaced by a fresh
list, see the counterexample. -/
theorem c10_truthy_non_array (kvs ekvs : List (String × Json)) (p : Json)
    (optCS : Option ColorSpace) (answer : String)
    (hE : jlookup kvs "expo" = some (.obj ekvs))
    (hP : jlookup ekvs "plugins" = some p)
    (hp : truthy p = true) (hna : isArrB p = false) :
    (∀ cs, modifyAppJson (.ok (.obj kvs)) cs = .failed .typeError) ∧
    (applyRun (some (.appJson (.ok (.obj kvs)))) optCS answer).exitCode = 1 ∧
    (applyRun (some (.appJson (.ok (.obj kvs)))) optCS answer).written = none ∧
    Msg.errorReported (.failedModifyAppJson .typeError) ∈
      (applyRun (some (.appJson (.ok (.obj kvs)))) optCS answer).events := by
  have hek : ensureKey kvs "expo" (.obj []) = kvs := ensureKey_truthy _ hE rfl
  have hep : ensureKey ekvs "plugins" (.arr []) = ekvs := ensureKey_truthy _ hP hp
  have hmod : ∀ cs, modifyAppJson (.ok (.obj kvs)) cs = .failed .typeError := by
    intro cs
    cases p with
    | arr xs => exact absurd hna (by simp [isArrB])
    | null => exact absurd hp (by simp [truthy])
    | bool b =>
      simp only [modifyAppJson, hek, hE, hep, hP]
      rfl
    | num n =>
      simp only [modifyAppJson, hek, hE, hep, hP]
      rfl
    | str s =>
      simp only [modifyAppJson, hek, hE, hep, hP]
      rfl
    | obj fs =>
      simp only [modifyAppJson, hek, hE, hep, hP]
      rfl
  refine ⟨hmod, ?_⟩
  cases optCS <;> simp [applyRun, patchFile, hmod]

/-- C10 witness: `{"expo":{"plugins":"x"}}` — a truthy string value. -/
theorem c10_truthy_non_array_witness :
    (∀ cs, modifyAppJson
        (.ok (.obj [("expo", .obj [("plugins", .str "x")])])) cs =
      .failed .typeError) ∧
    (applyRun (some (.appJson (.ok (.obj [("expo",
        .obj [("plugins", .str "x")])])))) (some .displayP3) "").exitCode = 1 ∧
    (applyRun (some (.appJson (.ok (.obj [("expo",
        .obj [("plugins", .str "x")])])))) (some .displayP3) "").written = none ∧
    Msg.errorReported (.failedModifyAppJson .typeError) ∈
      (applyRun (some (.appJson (.ok (.obj [("expo",
        .obj [("plugins", .str "x")])])))) (some .displayP3) "").events :=
  c10_truthy_non_array [("expo", .obj [("plugins", .str "x")])]
    [("plugins", .str "x")] (.str "x") (some .displayP3) "" rfl rfl rfl rfl

/-- C10 counterexample: for `{"expo":{"plugins":""}}` the `plugins` field
exists, is a string (not an array) and is not detected, yet the patcher
does NOT throw: the falsy value is replaced by a fresh list, the entry is
pushed, the file is written and the run exits with code 0. -/
theorem c10_counterexample :
    modifyAppJson (.ok (.obj c10cexKvs)) .displayP3 =
      .written (.obj [("expo",
        .obj [("plugins", .arr [entryJson .displayP3])])]) ∧
    (applyRun (some (.appJson (.ok (.obj c10cexKvs))))
        (some .displayP3) "").exitCode = 0 ∧
    (applyRun (some (.appJson (.ok (.obj c10cexKvs))))
        (some .displayP3) "").written.isSome = true :=
  ⟨rfl, rfl, rfl⟩

/-- C2, amended: structured-patch postcondition for documents that are
objects whose `expo` value, when present and truthy, is an object.  After
a successful patch the written document's plugins list is exactly the
input's prior plugins elements (`priorPlugins kvs`) with the entry
appended once — the prior elements are preserved in order and none of
them equals the entry — every other top-level key is preserved with an
equal value, and the file is written as the 2-space-indented
serialization plus a trailing newline (made concrete by the spec's
scenario, the last conjunct). -/
theorem c2_structured_postcondition (kvs : List (String × Json))
    (cs : ColorSpace) (doc' : Json) (answer : String)
    (hok : expoOkB kvs = true)
    (hw : modifyAppJson (.ok (.obj kvs)) cs = .written doc') :
    (∃ kvs' ekvs',
      doc' = .obj kvs' ∧
      jlookup kvs' "expo" = some (.obj ekvs') ∧
      jlookup ekvs' "plugins" =
        some (.arr (priorPlugins kvs ++ [entryJson cs])) ∧
      (∀ x ∈ priorPlugins kvs, x ≠ entryJson cs) ∧
      (∀ k, k ≠ "expo" → jlookup kvs' k = jlookup kvs k)) ∧
    (applyRun (some (.appJson (.ok (.obj kvs)))) (some cs) answer).written =
      some (Json.stringify doc' ++ ['\n']) ∧
    (applyRun (some (.appJson (.ok (.obj scenarioJsonKvs))))
        (some .SRGB) "").written = some scenarioJsonOut := by
  obtain ⟨kvs', ekvs', h1, h2, h3, h4, h5⟩ := modifyAppJson_written hok hw
  refine ⟨⟨kvs', ekvs', h1, h2, h3, ?_, h5⟩, ?_, ?_⟩
  · intro x hx hxe
    exact entry_not_mem_of_not_detected h4 (hxe ▸ hx)
  · simp [applyRun, patchFile, hw]
  · rfl

/-- C2 witness at a document WITH a pre-existing plugins element
(`"other-plugin"`) and a second top-level key (`"extra"`): the prior
element is preserved ahead of the appended entry, the entry occurs
exactly once, and the other top-level key keeps its value. -/
theorem c2_structured_postcondition_witness :
    (∃ kvs' ekvs',
      c2wPriorDoc = .obj kvs' ∧
      jlookup kvs' "expo" = some (.obj ekvs') ∧
      jlookup ekvs' "plugins" =
        some (.arr ([.str "other-plugin"] ++ [entryJson .SRGB])) ∧
      (∀ x ∈ ([.str "other-plugin"] : List Json), x ≠ entryJson .SRGB) ∧
      (∀ k, k ≠ "expo" → jlookup kvs' k = jlookup c2wPriorKvs k)) ∧
    (applyRun (some (.appJson (.ok (.obj c2wPriorKvs))))
        (some .SRGB) "").written =
      some (Json.stringify c2wPriorDoc ++ ['\n']) ∧
    (applyRun (some (.appJson (.ok (.obj scenarioJsonKvs))))
        (some .SRGB) "").written = some scenarioJsonOut :=
  c2_structured_postcondition c2wPriorKvs .SRGB c2wPriorDoc "" rfl rfl

/-- C2 counterexample: `{"expo":[]}` is a well-formed JSON document
without the entry; apply succeeds (returns `true` and writes), yet the
written document is the input unchanged — its `expo` value is still the
empty array, so no plugins list contains the entry.  (In JavaScript,
`config.expo.plugins` becomes a named property of the array, which
`JSON.stringify` drops.) -/
theorem c2_counterexample :
    modifyAppJson (.ok (.obj expoArrayKvs)) .SRGB =
      .written (.obj expoArrayKvs) ∧
    jlookup expoArrayKvs "expo" = some (.arr []) ∧
    writtenHasEntry (modifyAppJson (.ok (.obj expoArrayKvs)) .SRGB) .SRGB =
      false :=
  ⟨rfl, rfl, rfl⟩

/-- C1, amended: idempotence for data-format documents whose `expo`
value, when present and truthy, is an object, and for all code-format
files.  After a successful patch, a second run — with the same or a
different color-space argument — detects the entry, reports "already
configured", performs no write and exits with code 0, leaving the file
content identical to the content after the first run. -/
theorem c1_idempotent :
    (∀ (kvs : List (String × Json)) (cs cs₂ : ColorSpace) (doc' : Json)
        (answer : String),
      expoOkB kvs = true →
      modifyAppJson (.ok (.obj kvs)) cs = .written doc' →
      modifyAppJson (.ok doc') cs₂ = .alreadyConfigured ∧
      applyRun (some (.appJson (.ok doc'))) (some cs₂) answer =
        ⟨0, none, [.foundConfig, .alreadyConfigured]⟩) ∧
    (∀ (content : List Char) (cs cs₂ : ColorSpace) (out : List Char)
        (answer : String),
      modifyAppConfigJs content cs = .written out →
      modifyAppConfigJs out cs₂ = .alreadyConfigured ∧
      applyRun (some (.appConfigJs out)) (some cs₂) answer =
        ⟨0, none, [.foundConfig, .alreadyConfigured]⟩) := by
  constructor
  · intro kvs cs cs₂ doc' answer hok hw
    obtain ⟨kvs', ekvs', h1, h2, h3, h4, h5⟩ := modifyAppJson_written hok hw
    subst h1
    have hdet : modifyAppJson (.ok (.obj kvs')) cs₂ = .alreadyConfigured :=
      modifyAppJson_detects cs₂ h2 h3 (detect_append_entry (priorPlugins kvs) cs)
    exact ⟨hdet, by simp [applyRun, patchFile, hdet]⟩
  · intro content cs cs₂ out answer hw
    have hdet : modifyAppConfigJs out cs₂ = .alreadyConfigured :=
      modifyAppConfigJs_already cs₂ (modifyAppConfigJs_written_includes hw)
    exact ⟨hdet, by simp [applyRun, patchFile, hdet]⟩

/-- C1 witness: the data-format scenario document after one successful
patch, and the code-format scenario text after one successful patch. -/
theorem c1_idempotent_witness :
    (modifyAppJson (.ok c2wDoc) .displayP3 = .alreadyConfigured ∧
      applyRun (some (.appJson (.ok c2wDoc))) (some .displayP3) "" =
        ⟨0, none, [.foundConfig, .alreadyConfigured]⟩) ∧
    (modifyAppConfigJs scenarioJsOut .SRGB = .alreadyConfigured ∧
      applyRun (some (.appConfigJs scenarioJsOut)) (some .SRGB) "" =
        ⟨0, none, [.foundConfig, .alreadyConfigured]⟩) :=
  ⟨c1_idempotent.1 scenarioJsonKvs .SRGB .displayP3 c2wDoc "" rfl rfl,
   c1_idempotent.2 scenarioJs .displayP3 .SRGB scenarioJsOut "" (by decide)⟩

/-- C1 counterexample: for the data-format file `{"expo":[]}` the first
apply succeeds (returns `true` and writes), the written document parses
back to `{"expo":[]}` itself, and the run on that written document — the
second run — writes again and never reports "already configured": the
second run does not detect the entry and is not a no-op. -/
theorem c1_counterexample :
    modifyAppJson (.ok (.obj expoArrayKvs)) .displayP3 =
      .written (.obj expoArrayKvs) ∧
    (applyRun (some (.appJson (.ok (.obj expoArrayKvs))))
        (some .displayP3) "").written.isSome = true ∧
    (applyRun (some (.appJson (.ok (.obj expoArrayKvs))))
        (some .displayP3) "").events.contains .alreadyConfigured = false :=
  ⟨rfl, rfl, rfl⟩

/-- C9, amended: in an interactive run (no color-space flag) the source
prompts BEFORE detection — the prompt is always performed, even when the
entry is already present; the run then reports "already configured",
performs no write and exits with code 0. -/
theorem c9_prompt_order (f : ConfigFile) (answer : String)
    (h : patchFile f (promptColorSpace answer) = .alreadyConfigured) :
    applyRun (some f) none answer =
      ⟨0, none, [.foundConfig, .prompted, .alreadyConfigured]⟩ := by
  simp [applyRun, h]

/-- C9 witness: an interactive run on a data-format file that already
holds the entry. -/
theorem c9_prompt_order_witness :
    applyRun (some (.appJson (.ok (.obj presentKvs)))) none "" =
      ⟨0, none, [.foundConfig, .prompted, .alreadyConfigured]⟩ :=
  c9_prompt_order (.appJson (.ok (.obj presentKvs))) "" rfl

/-- C9 counterexample: in an interactive run on a file that already holds
the entry, the prompt IS performed (the events contain `prompted`), while
the claim demands the run terminate without ever prompting. -/
theorem c9_counterexample :
    (applyRun (some (.appJson (.ok (.obj presentKvs))))
        none "").events.contains .prompted = true ∧
    (applyRun (some (.appJson (.ok (.obj presentKvs))))
        none "").events.contains .alreadyConfigured = true ∧
    (applyRun (some (.appJson (.ok (.obj presentKvs)))) none "").exitCode = 0 ∧
    (applyRun (some (.appJson (.ok (.obj presentKvs)))) none "").written = none :=
  ⟨rfl, rfl, rfl, rfl⟩
